import Mathlib

/-!
Shallow embedding of `trends/library.py` (Gnip-Trend-Detection): the
`TopicSeries` windowing generator, the four-stage transformation pipeline,
the `Library` class with its `combine` semantics, the auxiliary `sizing`
transform, and the persistence helpers `load_library` / `Library.__init__`.
Series values are modelled as real numbers (Python floats), machine
exceptions as explicit `Except`/`Option` results.
-/

namespace GnipTrend

/-- Kinds of Python exceptions raised by code paths in `library.py`:
`EOFError`/`UnpicklingError` from `pickle.load`, `TypeError` from
`None - int`, `ValueError` from `random.randint` on an empty range or
`min` of an empty list, `KeyError` from a missing dict key. -/
inductive PyError where
  | eofError
  | unpicklingError
  | typeError
  | valueError
  | keyError (key : String)
deriving DecidableEq, Repr

/-- The `config` dict of a `Library`: `reference_length`, `n_smooth`,
`alpha` and the transient `is_trend` flag written by `add_series` before
each transformation run (modelled as a field, default `false`). -/
structure Config where
  reference_length : ℕ
  n_smooth : ℕ
  alpha : ℝ
  is_trend : Bool

/-- Python slice `l[a:b]` for int indices `a`, `b` (step 1): a negative
index counts from the end, then both endpoints are clamped into
`[0, len(l)]` and the elements with positions in `[start, stop)` are kept. -/
def pySlice {α : Type} (l : List α) (a b : ℤ) : List α :=
  let n : ℤ := l.length
  let start := if a < 0 then max 0 (n + a) else min a n
  let stop := if b < 0 then max 0 (n + b) else min b n
  (l.take stop.toNat).drop start.toNat

/-- The loop of `TopicSeries.get_subseries`:
`while index + length <= len(self): yield self[index:index+length]; index += 1`.
The yielded values are collected into a list. -/
def get_subseries_go {α : Type} (self : List α) (length index : ℕ) :
    List (List α) :=
  if index + length ≤ self.length then
    ((self.drop index).take length) :: get_subseries_go self length (index + 1)
  else []
termination_by self.length + 1 - index
decreasing_by omega

/-- `TopicSeries.get_subseries(length)`: all contiguous sub-windows of the
given length, starting from index 0. -/
def get_subseries {α : Type} (self : List α) (length : ℕ) : List (List α) :=
  get_subseries_go self length 0

/-- The loop of `spike_normalization`: `prev_pt = 0`, then for each point
`pt`, `new_pt = 0 if pt == 0 else abs(pt - prev_pt) ** alpha`, and
`prev_pt = pt` afterwards. -/
noncomputable def spike_go (alpha : ℝ) : ℝ → List ℝ → List ℝ
  | _, [] => []
  | prev_pt, pt :: rest =>
      (if pt = 0 then (0 : ℝ) else |pt - prev_pt| ^ alpha) :: spike_go alpha pt rest

/-- `spike_normalization(series, config)` from `library.py`. -/
noncomputable def spike_normalization (series : List ℝ) (config : Config) : List ℝ :=
  spike_go config.alpha 0 series

/-- The loop of `smoothing`: a deque accumulates points, `popleft` drops the
oldest once its length exceeds `N_smooth`, and the sum of the deque is
emitted at each position. -/
def smoothing_go (N_smooth : ℕ) : List ℝ → List ℝ → List ℝ
  | _, [] => []
  | queue, pt :: rest =>
      let q1 := queue ++ [pt]
      let q2 := if N_smooth < q1.length then q1.tail else q1
      q2.sum :: smoothing_go N_smooth q2 rest

/-- `smoothing(series, config)` from `library.py`: moving sum over a
trailing window of width `n_smooth`, starting from an empty deque. -/
def smoothing (series : List ℝ) (config : Config) : List ℝ :=
  smoothing_go config.n_smooth [] series

/-- `unit_normalization(series, config)` from `library.py`:
`size = len(series)`, then every point is replaced by `float(pt)/size`. -/
noncomputable def unit_normalization (series : List ℝ) (_config : Config) : List ℝ :=
  series.map (fun pt => pt / (series.length : ℝ))

/-- `logarithmic_scaling(series, config)` from `library.py`: computes
`series_min = min(series)` (which raises `ValueError` on an empty series
and is otherwise unused), then maps `pt` to `math.log10(pt + 1)`. -/
noncomputable def logarithmic_scaling (series : List ℝ) (_config : Config) :
    Except PyError (List ℝ) :=
  match series with
  | [] => Except.error PyError.valueError
  | _ :: _ => Except.ok (series.map (fun pt => Real.logb 10 (pt + 1)))

/-- The `transformations` list built by `Library.set_up_transformations`:
spike normalization, smoothing, unit normalization, logarithmic scaling in
that order. The three total stages are wrapped in `Except.ok`; a raised
exception is an `Except.error`. -/
noncomputable def transformations :
    List (List ℝ → Config → Except PyError (List ℝ)) :=
  [fun s c => Except.ok (spike_normalization s c),
   fun s c => Except.ok (smoothing s c),
   fun s c => Except.ok (unit_normalization s c),
   fun s c => logarithmic_scaling s c]

/-- `Library.transform_input`: run the series sequentially through the
functions in the transformations list; a raised exception aborts the run. -/
noncomputable def transform_input (series : List ℝ) (config : Config) :
    Except PyError (List ℝ) :=
  transformations.foldl
    (fun acc t => acc.bind (fun s => t s config)) (Except.ok series)

/-- The state of a `Library` object: the two labeled collections and the
config dict. -/
structure Library where
  trends : List (List ℝ)
  non_trends : List (List ℝ)
  config : Config

/-- `Library.__init__(**kwargs)`: sets `trends = []`, `non_trends = []`,
fills the default config, then evaluates `kwargs["config"]` — which raises
`KeyError("config")` when the caller passed no `config` keyword (as in the
bare `Library()` calls of `load_library` and `__main__`). The caller's
config dict, merged key-by-key over the defaults, is modelled as the
resulting `Config` value. -/
def Library.init (kwargs_config : Option Config) : Except PyError Library :=
  match kwargs_config with
  | none => Except.error (PyError.keyError "config")
  | some cfg => Except.ok { trends := [], non_trends := [], config := cfg }

/-- `Library.add_series(series, is_trend)`: writes the transient `is_trend`
into the config, transforms the series, then appends the result to
`trends` or `non_trends`. An exception in the pipeline propagates with the
collections untouched (only the config write has happened); the error
value carries the library state at the raise. -/
noncomputable def add_series (lib : Library) (series : List ℝ)
    (is_trend : Bool) : Except Library Library :=
  let cfg : Config := { lib.config with is_trend := is_trend }
  match transform_input series cfg with
  | Except.error _ => Except.error { lib with config := cfg }
  | Except.ok s =>
      if is_trend then
        Except.ok { lib with config := cfg, trends := lib.trends ++ [s] }
      else
        Except.ok { lib with config := cfg, non_trends := lib.non_trends ++ [s] }

/-- `Library.combine(lib)`: for each label, if the other library's list is
non-empty, `assert` that this library's list is empty and then take the
other's list. A failed `assert` raises `AssertionError`; the `Except.error`
value carries the state of `self` at the moment of the raise (the `trends`
assignment may already have happened). -/
def combine (self other : Library) : Except Library Library :=
  match other.trends with
  | [] =>
      match other.non_trends with
      | [] => Except.ok self
      | _ :: _ =>
          match self.non_trends with
          | [] => Except.ok { self with non_trends := other.non_trends }
          | _ :: _ => Except.error self
  | _ :: _ =>
      match self.trends with
      | [] =>
          let self1 : Library := { self with trends := other.trends }
          match other.non_trends with
          | [] => Except.ok self1
          | _ :: _ =>
              match self1.non_trends with
              | [] => Except.ok { self1 with non_trends := other.non_trends }
              | _ :: _ => Except.error self1
      | _ :: _ => Except.error self

/-- The `for pt in series` loop of `sizing` for the trend branch:
`max_idx = None; max_pt = -5000; idx = 0`, update `max_idx`/`max_pt`
whenever `pt > max_pt`. Returns the final `(max_idx, max_pt)`. -/
noncomputable def find_max_go : List ℝ → Option ℕ → ℝ → ℕ → Option ℕ × ℝ
  | [], max_idx, max_pt, _ => (max_idx, max_pt)
  | pt :: rest, max_idx, max_pt, idx =>
      if max_pt < pt then find_max_go rest (some idx) pt (idx + 1)
      else find_max_go rest max_idx max_pt (idx + 1)

/-- `sizing(series, config)` from `library.py`. For trends: locate the
maximum with the `-5000` sentinel loop and return
`series[max_idx - size_r : max_idx]`; when `max_idx` is still `None`,
`None - size_r` raises `TypeError`. For non-trends:
`random.randint(0, len(series) - size_r)` raises `ValueError` when the
range is empty, otherwise the drawn offset (modelled by the external
parameter `pick`, the value `randint` returns) selects the window
`series[index : index + size_r]`. -/
noncomputable def sizing (pick : ℕ) (series : List ℝ) (config : Config) :
    Except PyError (List ℝ) :=
  let size_r : ℕ := config.reference_length
  if config.is_trend then
    match (find_max_go series none (-5000) 0).1 with
    | none => Except.error PyError.typeError
    | some max_idx =>
        Except.ok (pySlice series ((max_idx : ℤ) - (size_r : ℤ)) (max_idx : ℤ))
  else
    if ((series.length : ℤ) - (size_r : ℤ)) < 0 then
      Except.error PyError.valueError
    else
      Except.ok (pySlice series (pick : ℤ) ((pick : ℤ) + (size_r : ℤ)))

/-- What the backing store handed to `pickle.load` can look like:
an empty file (`pickle.load` raises `EOFError`), corrupt bytes
(`pickle.load` raises `UnpicklingError`), or a valid pickled `Library`. -/
inductive StoreContent where
  | empty
  | corrupt
  | valid (lib : Library)

/-- `pickle.load(open(file_name))` on the given store content. -/
def pickle_load : StoreContent → Except PyError Library
  | StoreContent.empty => Except.error PyError.eofError
  | StoreContent.corrupt => Except.error PyError.unpicklingError
  | StoreContent.valid lib => Except.ok lib

/-- `load_library(file_name)` from `library.py`: `try: return
pickle.load(open(file_name)); except EOFError: return Library()`. Only
`EOFError` is caught; the handler calls `Library()` with no keyword
arguments. -/
def load_library (store : StoreContent) : Except PyError Library :=
  match pickle_load store with
  | Except.ok lib => Except.ok lib
  | Except.error PyError.eofError => Library.init none
  | Except.error e => Except.error e

/-- Libraries reachable through the public operations: a fresh library
from a successful `__init__`, growth by a successful `add_series`, and a
successful `combine` of two reachable libraries. -/
inductive Reachable : Library → Prop
  | init (cfg : Config) : Reachable { trends := [], non_trends := [], config := cfg }
  | add {lib lib' : Library} {s : List ℝ} {b : Bool} :
      Reachable lib → add_series lib s b = Except.ok lib' → Reachable lib'
  | comb {lib other lib' : Library} :
      Reachable lib → Reachable other → combine lib other = Except.ok lib' →
      Reachable lib'

/-- The config of the §8 scenario: `alpha = 1`, default `n_smooth = 80`
and `reference_length = 210`. -/
noncomputable def scenarioConfig : Config :=
  { reference_length := 210, n_smooth := 80, alpha := 1, is_trend := false }

/-- A config with `reference_length = 5` and the trend flag set, used to
probe `sizing` on series shorter than the reference length. -/
noncomputable def sizingTrendConfig : Config :=
  { reference_length := 5, n_smooth := 80, alpha := 6 / 5, is_trend := true }

/-- A config with `reference_length = 1` and the trend flag set, used to
probe the `-5000` sentinel of the `sizing` maximum search. -/
noncomputable def sentinelConfig : Config :=
  { reference_length := 1, n_smooth := 80, alpha := 6 / 5, is_trend := true }

/-- A config with `reference_length = 5` and the trend flag clear, used to
probe the non-trend branch of `sizing`. -/
noncomputable def sizingNonTrendConfig : Config :=
  { reference_length := 5, n_smooth := 80, alpha := 6 / 5, is_trend := false }

end GnipTrend

namespace GnipTrend

theorem get_subseries_go_spec {α : Type} (s : List α) (L : ℕ) :
    ∀ index : ℕ,
      get_subseries_go s L index =
        (List.range (s.length + 1 - L - index)).map
          (fun j => (s.drop (index + j)).take L) := by
  suffices H : ∀ (n index : ℕ), s.length + 1 - index ≤ n →
      get_subseries_go s L index =
        (List.range (s.length + 1 - L - index)).map
          (fun j => (s.drop (index + j)).take L) by
    intro index
    exact H (s.length + 1) index (by omega)
  intro n
  induction n with
  | zero =>
    intro index hle
    rw [get_subseries_go]
    have h1 : ¬ index + L ≤ s.length := by omega
    have h2 : s.length + 1 - L - index = 0 := by omega
    simp [h1, h2]
  | succ n ih =>
    intro index hle
    rw [get_subseries_go]
    by_cases h : index + L ≤ s.length
    · have hc : s.length + 1 - L - index = (s.length + 1 - L - (index + 1)) + 1 := by
        omega
      rw [if_pos h, hc, List.range_succ_eq_map, List.map_cons, List.map_map]
      rw [ih (index + 1) (by omega)]
      congr 1
      refine List.map_congr_left ?_
      intro a _
      simp only [Function.comp_apply]
      have harith : index + 1 + a = index + (a + 1) := by omega
      rw [harith]
    · have hc : s.length + 1 - L - index = 0 := by omega
      rw [if_neg h, hc]
      simp

theorem get_subseries_length {α : Type} (s : List α) (L : ℕ) :
    (get_subseries s L).length = s.length + 1 - L := by
  unfold get_subseries
  rw [get_subseries_go_spec]
  simp

theorem get_subseries_eq_map {α : Type} (s : List α) (L : ℕ) :
    get_subseries s L =
      (List.range (s.length + 1 - L)).map (fun j => (s.drop j).take L) := by
  unfold get_subseries
  rw [get_subseries_go_spec]
  simp

theorem get_subseries_get {α : Type} (s : List α) (L : ℕ) (i : ℕ)
    (h : i < (get_subseries s L).length) :
    (get_subseries s L).get ⟨i, h⟩ = (s.drop i).take L := by
  have h' : i < s.length + 1 - L := by
    rw [get_subseries_length] at h; exact h
  have hsome : (get_subseries s L)[i]? = some ((s.drop i).take L) := by
    rw [get_subseries_eq_map]
    simp [List.getElem?_map, List.getElem?_range, h']
  rw [List.get_eq_getElem]
  rw [List.getElem?_eq_getElem h] at hsome
  exact Option.some.inj hsome

/-- Claim C2: `get_subseries(L)` on a series of length `N` yields exactly
`max(0, N-L+1)` windows; the `i`-th window is the contiguous slice of
length `L` starting at offset `i` (offsets `0, 1, ..., N-L` in strictly
increasing order), and zero windows are yielded when `L > N`. -/
theorem get_subseries_windows {α : Type} (s : List α) (L : ℕ) :
    (((get_subseries s L).length : ℤ) = max 0 ((s.length : ℤ) - L + 1)) ∧
    (∀ (i : ℕ) (h : i < (get_subseries s L).length),
      (get_subseries s L).get ⟨i, h⟩ = (s.drop i).take L ∧
      ((get_subseries s L).get ⟨i, h⟩).length = L) := by
  constructor
  · rw [get_subseries_length]
    omega
  · intro i h
    have hget := get_subseries_get s L i h
    refine ⟨hget, ?_⟩
    rw [hget]
    have hlen : i < s.length + 1 - L := by
      rw [get_subseries_length] at h; exact h
    simp [List.length_take, List.length_drop]
    omega

/-- Witness for C2 at the spec scenario: `get_subseries(3)` on
`[10,20,30,40]` has exactly two windows and window 1 is `[20,30,40]`. -/
theorem get_subseries_windows_witness :
    ((get_subseries ([10, 20, 30, 40] : List ℤ) 3).length : ℤ) = 2 ∧
    ∃ h : 1 < (get_subseries ([10, 20, 30, 40] : List ℤ) 3).length,
      (get_subseries ([10, 20, 30, 40] : List ℤ) 3).get ⟨1, h⟩ = [20, 30, 40] := by
  have H := get_subseries_windows ([10, 20, 30, 40] : List ℤ) 3
  have hlen : ((get_subseries ([10, 20, 30, 40] : List ℤ) 3).length : ℤ) = 2 := by
    rw [H.1]; simp
  have h1 : 1 < (get_subseries ([10, 20, 30, 40] : List ℤ) 3).length := by
    omega
  refine ⟨hlen, h1, ?_⟩
  rw [(H.2 1 h1).1]
  rfl

theorem combine_destruct (st snt ot ont : List (List ℝ)) (sc oc : Config) :
    combine ⟨st, snt, sc⟩ ⟨ot, ont, oc⟩ =
      match ot with
      | [] =>
          match ont with
          | [] => Except.ok ⟨st, snt, sc⟩
          | _ :: _ =>
              match snt with
              | [] => Except.ok ⟨st, ont, sc⟩
              | _ :: _ => Except.error ⟨st, snt, sc⟩
      | _ :: _ =>
          match st with
          | [] =>
              match ont with
              | [] => Except.ok ⟨ot, snt, sc⟩
              | _ :: _ =>
                  match snt with
                  | [] => Except.ok ⟨ot, ont, sc⟩
                  | _ :: _ => Except.error ⟨ot, snt, sc⟩
          | _ :: _ => Except.error ⟨st, snt, sc⟩ := by
  cases ot <;> cases ont <;> cases st <;> cases snt <;> rfl

/-- Claim C1: `combine(other)` requires, for each label, that a non-empty
incoming list meets an empty one, and then installs the incoming list;
combining when both libraries hold entries for the same label is an
`AssertionError` (the operation halts with an error result, nothing is
merged); combining with a fully empty library is a no-op. -/
theorem combine_spec (self other : Library) :
    (∀ cfg : Config,
        combine self { trends := [], non_trends := [], config := cfg } =
          Except.ok self) ∧
    (other.trends ≠ [] → self.trends ≠ [] →
        combine self other = Except.error self) ∧
    (other.non_trends ≠ [] → self.non_trends ≠ [] →
        ∃ p, combine self other = Except.error p) ∧
    (∀ r, combine self other = Except.ok r →
        r.trends = (if other.trends = [] then self.trends else other.trends) ∧
        r.non_trends =
          (if other.non_trends = [] then self.non_trends else other.non_trends) ∧
        (other.trends ≠ [] → self.trends = []) ∧
        (other.non_trends ≠ [] → self.non_trends = [])) := by
  obtain ⟨st, snt, sc⟩ := self
  obtain ⟨ot, ont, oc⟩ := other
  refine ⟨fun cfg => ?_, ?_, ?_, ?_⟩
  · cases st <;> cases snt <;> rfl
  all_goals
    rw [combine_destruct]
    cases ot <;> cases ont <;> cases st <;> cases snt <;> simp

/-- Witness for C1: a library holding only trends combined with the empty
library is unchanged, and combined with a library that also holds trends
it fails with an error. -/
theorem combine_spec_witness :
    combine ⟨[[1]], [], scenarioConfig⟩ ⟨[], [], scenarioConfig⟩ =
      Except.ok ⟨[[1]], [], scenarioConfig⟩ ∧
    combine ⟨[[1]], [], scenarioConfig⟩ ⟨[[2]], [[3]], scenarioConfig⟩ =
      Except.error ⟨[[1]], [], scenarioConfig⟩ := by
  constructor
  · exact (combine_spec ⟨[[1]], [], scenarioConfig⟩
      ⟨[[2]], [[3]], scenarioConfig⟩).1 scenarioConfig
  · exact (combine_spec ⟨[[1]], [], scenarioConfig⟩
      ⟨[[2]], [[3]], scenarioConfig⟩).2.1 (by simp) (by simp)

/-- Claim C9: `combine` is not atomic on failure — when the incoming
trends land in an empty slot but both non-trend lists are populated, the
assertion fires only after `self.trends` has been replaced, and the error
state carries the partially modified library. -/
theorem combine_partial_on_failure (self other : Library)
    (h1 : other.trends ≠ []) (h2 : self.trends = [])
    (h3 : other.non_trends ≠ []) (h4 : self.non_trends ≠ []) :
    combine self other = Except.error { self with trends := other.trends } := by
  obtain ⟨st, snt, sc⟩ := self
  obtain ⟨ot, ont, oc⟩ := other
  simp only at h1 h2 h3 h4
  subst h2
  rw [combine_destruct]
  cases ot with
  | nil => exact absurd rfl h1
  | cons a ta =>
    cases ont with
    | nil => exact absurd rfl h3
    | cons b tb =>
      cases snt with
      | nil => exact absurd rfl h4
      | cons c tc => rfl

/-- Witness for C9: the partially modified state is observable on concrete
libraries. -/
theorem combine_partial_on_failure_witness :
    combine ⟨[], [[3]], scenarioConfig⟩ ⟨[[2]], [[4]], scenarioConfig⟩ =
      Except.error ⟨[[2]], [[3]], scenarioConfig⟩ := by
  exact combine_partial_on_failure ⟨[], [[3]], scenarioConfig⟩
    ⟨[[2]], [[4]], scenarioConfig⟩ (by simp) rfl (by simp) (by simp)

theorem transform_input_eq (s : List ℝ) (cfg : Config) :
    transform_input s cfg =
      logarithmic_scaling
        (unit_normalization (smoothing (spike_normalization s cfg) cfg) cfg)
        cfg := by
  simp [transform_input, transformations, Except.bind]

/-- Claim C3: the pipeline applies exactly the four stages — spike
normalization, smoothing, unit normalization, logarithmic scaling — in
that order, each consuming the previous stage's output; and on the raw
series `[1,2,3,2,1]` with `alpha = 1` and `n_smooth = 80` it produces
`[log10 1.2, log10 1.4, log10 1.6, log10 1.8, log10 2.0]`. -/
theorem transform_input_pipeline :
    (∀ (s : List ℝ) (cfg : Config),
        transform_input s cfg =
          logarithmic_scaling
            (unit_normalization (smoothing (spike_normalization s cfg) cfg) cfg)
            cfg) ∧
    transform_input [1, 2, 3, 2, 1] scenarioConfig =
      Except.ok [Real.logb 10 (12 / 10), Real.logb 10 (14 / 10),
        Real.logb 10 (16 / 10), Real.logb 10 (18 / 10), Real.logb 10 2] := by
  refine ⟨transform_input_eq, ?_⟩
  have h1 : spike_normalization [1, 2, 3, 2, 1] scenarioConfig =
      [1, 1, 1, 1, 1] := by
    norm_num [spike_normalization, spike_go, scenarioConfig, Real.rpow_one]
  have h2 : smoothing [(1 : ℝ), 1, 1, 1, 1] scenarioConfig =
      [1, 2, 3, 4, 5] := by
    norm_num [smoothing, smoothing_go, scenarioConfig]
  have h3 : unit_normalization [(1 : ℝ), 2, 3, 4, 5] scenarioConfig =
      [1 / 5, 2 / 5, 3 / 5, 4 / 5, 1] := by
    norm_num [unit_normalization]
  have h4 : logarithmic_scaling [(1 : ℝ) / 5, 2 / 5, 3 / 5, 4 / 5, 1]
      scenarioConfig =
      Except.ok [Real.logb 10 (12 / 10), Real.logb 10 (14 / 10),
        Real.logb 10 (16 / 10), Real.logb 10 (18 / 10), Real.logb 10 2] := by
    norm_num [logarithmic_scaling]
  rw [transform_input_eq, h1, h2, h3, h4]

theorem spike_go_length (a : ℝ) :
    ∀ (s : List ℝ) (prev : ℝ), (spike_go a prev s).length = s.length := by
  intro s
  induction s with
  | nil => intro prev; rfl
  | cons pt rest ih => intro prev; simp [spike_go, ih]

theorem spike_go_getD (a : ℝ) :
    ∀ (s : List ℝ) (prev : ℝ) (i : ℕ), i < s.length →
      (spike_go a prev s).getD i 0 =
        if s.getD i 0 = 0 then 0
        else |s.getD i 0 - (if i = 0 then prev else s.getD (i - 1) 0)| ^ a := by
  intro s
  induction s with
  | nil => intro prev i h; simp at h
  | cons pt rest ih =>
    intro prev i h
    match i with
    | 0 => simp [spike_go]
    | Nat.succ j =>
      have hj : j < rest.length := by simpa using h
      have hIH := ih pt j hj
      simp only [spike_go, List.getD_cons_succ]
      rw [hIH]
      match j with
      | 0 => simp
      | Nat.succ k => simp

theorem spike_go_nonneg (a : ℝ) :
    ∀ (s : List ℝ) (prev : ℝ) (x : ℝ), x ∈ spike_go a prev s → 0 ≤ x := by
  intro s
  induction s with
  | nil => intro prev x hx; simp [spike_go] at hx
  | cons pt rest ih =>
    intro prev x hx
    simp only [spike_go, List.mem_cons] at hx
    rcases hx with h | h
    · subst h
      split
      · exact le_refl 0
      · exact Real.rpow_nonneg (abs_nonneg _) _
    · exact ih pt x h

/-- Claim C4: for every input series and every `alpha > 0`, spike
normalization preserves length; the point at position `i` is `0` if the
input point is `0` and `|pt - prev|^alpha` otherwise, with `prev` starting
at `0` and then tracking the previous raw input point; and every output
value is non-negative. -/
theorem spike_normalization_spec (s : List ℝ) (cfg : Config)
    (halpha : 0 < cfg.alpha) :
    (spike_normalization s cfg).length = s.length ∧
    (∀ i : ℕ, i < s.length →
        (spike_normalization s cfg).getD i 0 =
          if s.getD i 0 = 0 then 0
          else |s.getD i 0 - (if i = 0 then 0 else s.getD (i - 1) 0)| ^
            cfg.alpha) ∧
    (∀ x ∈ spike_normalization s cfg, 0 ≤ x) := by
  refine ⟨spike_go_length cfg.alpha s 0, ?_, ?_⟩
  · intro i hi
    exact spike_go_getD cfg.alpha s 0 i hi
  · intro x hx
    exact spike_go_nonneg cfg.alpha s 0 x hx

/-- Witness for C4 at the series `[3]` with `alpha = 1`: length is
preserved, position 0 holds `|3 - 0|^1`, and all outputs are
non-negative. -/
theorem spike_normalization_spec_witness :
    (0 : ℝ) < scenarioConfig.alpha ∧
    (spike_normalization [(3 : ℝ)] scenarioConfig).length = 1 ∧
    (spike_normalization [(3 : ℝ)] scenarioConfig).getD 0 0 =
      |(3 : ℝ) - 0| ^ scenarioConfig.alpha ∧
    (∀ x ∈ spike_normalization [(3 : ℝ)] scenarioConfig, 0 ≤ x) := by
  have halpha : (0 : ℝ) < scenarioConfig.alpha := by
    norm_num [scenarioConfig]
  have H := spike_normalization_spec [(3 : ℝ)] scenarioConfig halpha
  refine ⟨halpha, by simpa using H.1, ?_, H.2.2⟩
  have h0 := H.2.1 0 (by simp)
  simpa using h0

theorem sum_map_div (s : List ℝ) (c : ℝ) :
    (s.map (fun x => x / c)).sum = s.sum / c := by
  induction s with
  | nil => simp
  | cons pt rest ih => simp [ih, add_div]

/-- Claim C5: for every non-empty series, unit normalization divides every
point by the total series length, preserves length, and the output sum is
exactly the input sum divided by the input length. -/
theorem unit_normalization_spec (s : List ℝ) (cfg : Config) (hne : s ≠ []) :
    (unit_normalization s cfg).length = s.length ∧
    (∀ i : ℕ, i < s.length →
        (unit_normalization s cfg).getD i 0 = s.getD i 0 / (s.length : ℝ)) ∧
    (unit_normalization s cfg).sum = s.sum / (s.length : ℝ) := by
  refine ⟨by simp [unit_normalization], ?_, by simp [unit_normalization, sum_map_div]⟩
  intro i hi
  have hmap : i < (s.map (fun pt => pt / (s.length : ℝ))).length := by
    simpa using hi
  rw [unit_normalization, List.getD_eq_getElem _ _ hmap,
    List.getD_eq_getElem _ _ hi, List.getElem_map]

/-- Witness for C5 at the series `[2, 4]`: the output sum is the input sum
divided by the length. -/
theorem unit_normalization_spec_witness :
    ([(2 : ℝ), 4] : List ℝ) ≠ [] ∧
    (unit_normalization [(2 : ℝ), 4] scenarioConfig).sum =
      ([(2 : ℝ), 4] : List ℝ).sum / (([(2 : ℝ), 4] : List ℝ).length : ℝ) := by
  exact ⟨by simp,
    (unit_normalization_spec [(2 : ℝ), 4] scenarioConfig (by simp)).2.2⟩

theorem find_max_go_isSome :
    ∀ (s : List ℝ) (mi : Option ℕ) (mp : ℝ) (idx : ℕ),
      (mi.isSome = true ∨ ∃ x ∈ s, mp < x) →
      ((find_max_go s mi mp idx).1).isSome = true := by
  intro s
  induction s with
  | nil =>
    intro mi mp idx h
    rcases h with h | ⟨x, hx, _⟩
    · simpa [find_max_go] using h
    · simp at hx
  | cons pt rest ih =>
    intro mi mp idx h
    simp only [find_max_go]
    split
    · exact ih (some idx) pt (idx + 1) (Or.inl rfl)
    · rename_i hnlt
      apply ih mi mp (idx + 1)
      rcases h with h | ⟨x, hx, hmp⟩
      · exact Or.inl h
      · rcases List.mem_cons.mp hx with rfl | hx'
        · exact absurd hmp hnlt
        · exact Or.inr ⟨x, hx', hmp⟩

/-- Counterexample to C6: `sizing` on the trend-labeled series `[1,2,3]`
with `reference_length = 5 > 3` does not report an error — the Python
negative slice index silently wraps and the call returns the shortened
window `[1, 2]`. -/
theorem sizing_trend_counterexample :
    sizing 0 [(1 : ℝ), 2, 3] sizingTrendConfig = Except.ok [1, 2] ∧
    ([(1 : ℝ), 2, 3] : List ℝ).length < sizingTrendConfig.reference_length ∧
    ([(1 : ℝ), 2] : List ℝ).length < sizingTrendConfig.reference_length := by
  refine ⟨?_, by norm_num [sizingTrendConfig], by norm_num [sizingTrendConfig]⟩
  have hfm : find_max_go [(1 : ℝ), 2, 3] none (-5000) 0 = (some 2, 3) := by
    norm_num [find_max_go]
  simp only [sizing, sizingTrendConfig, hfm]
  norm_num [pySlice]
  rfl

/-- Amended C6: requesting `reference_length` greater than the series
length is an explicit error (`ValueError` from `randint`) only for the
non-trend label; for the trend label `sizing` never raises once some point
exceeds the `-5000` sentinel — it silently returns a (possibly shortened
or empty) Python-sliced window. -/
theorem sizing_insufficient_length (s : List ℝ) (cfg : Config) (pick : ℕ) :
    (cfg.is_trend = false → s.length < cfg.reference_length →
        sizing pick s cfg = Except.error PyError.valueError) ∧
    (cfg.is_trend = true → (∃ x ∈ s, (-5000 : ℝ) < x) →
        ∃ w, sizing pick s cfg = Except.ok w) := by
  constructor
  · intro htrend hlen
    have hneg : ((s.length : ℤ) - (cfg.reference_length : ℤ)) < 0 := by omega
    simp [sizing, htrend, hneg]
  · intro htrend hex
    have hsome := find_max_go_isSome s none (-5000) 0 (Or.inr hex)
    cases hm : (find_max_go s none (-5000) 0).1 with
    | none => rw [hm] at hsome; simp at hsome
    | some j =>
      refine ⟨pySlice s ((j : ℤ) - (cfg.reference_length : ℤ)) (j : ℤ), ?_⟩
      simp [sizing, htrend, hm]

/-- Witness for the amended C6: the non-trend branch errors on `[1,2,3]`
with `reference_length = 5`, while the trend branch yields a window. -/
theorem sizing_insufficient_length_witness :
    sizing 0 [(1 : ℝ), 2, 3] sizingNonTrendConfig =
      Except.error PyError.valueError ∧
    ∃ w, sizing 0 [(1 : ℝ), 2, 3] sizingTrendConfig = Except.ok w := by
  constructor
  · exact (sizing_insufficient_length [(1 : ℝ), 2, 3] sizingNonTrendConfig 0).1
      rfl (by norm_num [sizingNonTrendConfig])
  · exact (sizing_insufficient_length [(1 : ℝ), 2, 3] sizingTrendConfig 0).2
      rfl ⟨1, by simp, by norm_num⟩

/-- Claim C7 evaluated at its failing input: on the trend-labeled series
`[-7000, -6000]` with `reference_length = 1`, the maximum is `-6000` at
index `1 ≥ 1`, so the claim demands the window `[-7000]`; but no point
exceeds the `-5000` sentinel that initializes the maximum search, so
`max_idx` stays `None` and `None - size_r` raises `TypeError`. -/
theorem sizing_sentinel_bug :
    sizing 0 [(-7000 : ℝ), -6000] sentinelConfig =
      Except.error PyError.typeError := by
  have hfm : find_max_go [(-7000 : ℝ), -6000] none (-5000) 0 =
      (none, -5000) := by
    norm_num [find_max_go]
  simp [sizing, sentinelConfig, hfm]

/-- Claim C8 evaluated on the failing stores: on an empty backing store,
`pickle.load` raises `EOFError`, the handler calls `Library()` with no
keyword arguments, and `__init__` raises `KeyError("config")` — the
failure surfaces instead of a fresh empty Library; on a corrupt store the
`UnpicklingError` is not caught at all and propagates. -/
theorem load_library_failure :
    load_library StoreContent.empty =
      Except.error (PyError.keyError "config") ∧
    load_library StoreContent.corrupt =
      Except.error PyError.unpicklingError := by
  exact ⟨rfl, rfl⟩

theorem logarithmic_scaling_ok_ne_nil (u : List ℝ) (cfg : Config)
    (out : List ℝ) (h : logarithmic_scaling u cfg = Except.ok out) :
    out ≠ [] := by
  cases u with
  | nil => simp [logarithmic_scaling] at h
  | cons a t =>
    simp only [logarithmic_scaling, Except.ok.injEq] at h
    subst h
    simp

theorem add_series_ok_shape (lib : Library) (s : List ℝ) (b : Bool)
    (lib' : Library) (h : add_series lib s b = Except.ok lib') :
    ∃ out : List ℝ, out ≠ [] ∧
      ((lib'.trends = lib.trends ++ [out] ∧ lib'.non_trends = lib.non_trends) ∨
       (lib'.trends = lib.trends ∧ lib'.non_trends = lib.non_trends ++ [out])) := by
  simp only [add_series] at h
  split at h
  · exact absurd h (by simp)
  · rename_i x out heq
    have hne : out ≠ [] := by
      rw [transform_input_eq] at heq
      exact logarithmic_scaling_ok_ne_nil _ _ _ heq
    refine ⟨out, hne, ?_⟩
    split at h
    · injection h with h2
      subst h2
      exact Or.inl ⟨rfl, rfl⟩
    · injection h with h2
      subst h2
      exact Or.inr ⟨rfl, rfl⟩

theorem combine_ok_lists (l o r : Library)
    (h : combine l o = Except.ok r) :
    (r.trends = l.trends ∨ r.trends = o.trends) ∧
    (r.non_trends = l.non_trends ∨ r.non_trends = o.non_trends) := by
  obtain ⟨st, snt, sc⟩ := l
  obtain ⟨ot, ont, oc⟩ := o
  rw [combine_destruct] at h
  cases ot <;> cases ont <;> cases st <;> cases snt <;>
    simp_all <;> obtain ⟨h1, h2, h3⟩ := h <;> simp_all

/-- Claim C10: adding an empty series fails — the first three stages map
an empty series to an empty series, logarithmic scaling raises on the
`min` of its empty input, `add_series` propagates the error with the
collections untouched, and consequently no reachable library ever holds an
empty series in `trends` or `non_trends`. -/
theorem add_series_empty_fails (cfg : Config) (lib : Library) (b : Bool) :
    (spike_normalization [] cfg = [] ∧ smoothing [] cfg = [] ∧
     unit_normalization [] cfg = [] ∧
     logarithmic_scaling [] cfg = Except.error PyError.valueError) ∧
    add_series lib [] b =
      Except.error { lib with config := { lib.config with is_trend := b } } ∧
    (∀ l : Library, Reachable l →
        (∀ t ∈ l.trends, t ≠ []) ∧ (∀ t ∈ l.non_trends, t ≠ [])) := by
  refine ⟨⟨rfl, rfl, rfl, rfl⟩, ?_, ?_⟩
  · simp [add_series, transform_input_eq, spike_normalization, spike_go,
      smoothing, smoothing_go, unit_normalization, logarithmic_scaling]
  · intro l hl
    induction hl with
    | init c => simp
    | add hre hok ih =>
      obtain ⟨out, hne, hsh⟩ := add_series_ok_shape _ _ _ _ hok
      rcases hsh with ⟨ht, hnt⟩ | ⟨ht, hnt⟩
      · refine ⟨?_, ?_⟩
        · rw [ht]
          intro t hmem
          rcases List.mem_append.mp hmem with hm | hm
          · exact ih.1 t hm
          · have heq : t = out := by simpa using hm
            subst heq
            exact hne
        · rw [hnt]
          exact ih.2
      · refine ⟨?_, ?_⟩
        · rw [ht]
          exact ih.1
        · rw [hnt]
          intro t hmem
          rcases List.mem_append.mp hmem with hm | hm
          · exact ih.2 t hm
          · have heq : t = out := by simpa using hm
            subst heq
            exact hne
    | comb hra hrb hok iha ihb =>
      obtain ⟨ht, hnt⟩ := combine_ok_lists _ _ _ hok
      constructor
      · rcases ht with h | h <;> rw [h]
        · exact iha.1
        · exact ihb.1
      · rcases hnt with h | h <;> rw [h]
        · exact iha.2
        · exact ihb.2

/-- Witness for C10: on a concrete reachable library, adding the empty
series yields an error and the library holds no empty series. -/
theorem add_series_empty_fails_witness :
    add_series ⟨[], [], scenarioConfig⟩ [] true =
      Except.error ⟨[], [],
        { scenarioConfig with is_trend := true }⟩ ∧
    (∀ t ∈ (⟨[], [], scenarioConfig⟩ : Library).trends, t ≠ []) := by
  constructor
  · exact (add_series_empty_fails scenarioConfig ⟨[], [], scenarioConfig⟩
      true).2.1
  · exact ((add_series_empty_fails scenarioConfig ⟨[], [], scenarioConfig⟩
      true).2.2 ⟨[], [], scenarioConfig⟩ (Reachable.init scenarioConfig)).1

end GnipTrend
